import Mathlib

/-!
Verification of the profile resolution, hierarchy-merge and cascade-delete
engine of the identity-customer-data-service repository (package `service`).

The service layer is embedded shallowly: service functions are translated
statement-by-statement from the Go source.  The storage collaborators
(profile repository, event repository, schema repository, lock coordinator)
are not part of the source tree; they are modelled from the spec as pure
operations on an explicit `Store` value, and every collaborator invocation a
service function issues is recorded in an operation trace (`List RepoCall`)
so that ordering and absence of storage mutation can be stated.
-/

/-- A single value of the dynamically typed attribute maps
(`map[string]interface{}` in the source). -/
inductive AttrValue where
  | str (s : String)
  | int (i : Int)
  | bool (b : Bool)
deriving DecidableEq, Repr

/-- Modelled from the spec: `applicationData` is a sequence of
per-application records (example record `{"app":"x"}`); the record type
itself (`models.ApplicationData`) is not in the source tree, so only the
application tag is modelled. -/
structure ApplicationData where
  app : String
deriving DecidableEq, Repr

/-- A reference to a child profile, as returned by
`FetchChildProfiles` (`models.ChildProfile` is not in the source tree;
modelled from the spec as a child-identifier reference). -/
structure ChildRef where
  childProfileId : String
deriving DecidableEq, Repr

/-- `models.ProfileHierarchy`: hierarchy role of a profile row. -/
structure ProfileHierarchy where
  isParent : Bool
  parentProfileID : String
  listProfile : Bool
  childProfiles : List ChildRef
deriving DecidableEq, Repr

/-- `models.Profile`: the canonical identity record. -/
structure Profile where
  profileId : String
  profileHierarchy : ProfileHierarchy
  identityAttributes : List (String × AttrValue)
  traits : List (String × AttrValue)
  applicationData : List ApplicationData
deriving DecidableEq, Repr

/-- `models.Event`: carries at minimum the profile identifier. -/
structure Event where
  profileId : String
deriving DecidableEq, Repr

/-- A profile-enrichment rule row, as consumed by the filter translator
(`rule.PropertyName`, `rule.ValueType`). -/
structure EnrichmentRule where
  propertyName : String
  valueType : String
deriving DecidableEq, Repr

/-- Modelled from the spec: the storage backend visible to the service
layer — profile rows, the parent/child link set behind
`FetchChildProfiles`/`DetachChildProfileFromParent`, the application-data
rows behind `FetchApplicationData`, the event store behind
`DeleteEventsByProfileId`, and the enrichment-rule table behind
`GetProfileEnrichmentRules`. -/
structure Store where
  profiles : List Profile
  childLinks : List (String × String)
  appDataRows : List (String × ApplicationData)
  events : List Event
  enrichmentRules : List EnrichmentRule
deriving DecidableEq, Repr

/-- One collaborator invocation issued by a service function.  Read
operations never change the `Store`; write operations do. -/
inductive RepoCall where
  | getProfile (pid : String)
  | fetchChildProfiles (pid : String)
  | fetchApplicationData (pid : String)
  | insertProfile (pid : String)
  | deleteProfile (pid : String)
  | deleteEventsByProfileId (pid : String)
  | detachChildProfileFromParent (parent child : String)
deriving DecidableEq, Repr

/-- Whether a collaborator call mutates storage. -/
def RepoCall.isWrite : RepoCall → Bool
  | .getProfile _ => false
  | .fetchChildProfiles _ => false
  | .fetchApplicationData _ => false
  | .insertProfile _ => true
  | .deleteProfile _ => true
  | .deleteEventsByProfileId _ => true
  | .detachChildProfileFromParent _ _ => true

/-- Modelled from the spec: `getProfile(profileId) -> Profile?` — the row
with the requested identifier, if any. -/
def repoGetProfile (s : Store) (pid : String) : Option Profile :=
  s.profiles.find? (fun p => p.profileId == pid)

/-- Modelled from the spec: `getProfile` including its error result.  The
`fault` oracle injects a collaborator failure for a given identifier, in
which case no profile and a non-nil error are returned. -/
def repoGetProfileF (s : Store) (fault : String → Bool) (pid : String) :
    Option Profile × Bool :=
  if fault pid then (none, true) else (repoGetProfile s pid, false)

/-- Modelled from the spec: `fetchChildProfiles(parentId)` — the child
references linked to the given parent. -/
def repoFetchChildProfiles (s : Store) (pid : String) : List ChildRef :=
  (s.childLinks.filter (fun l => l.1 == pid)).map (fun l => ⟨l.2⟩)

/-- Modelled from the spec: `fetchApplicationData(profileId)`. -/
def repoFetchApplicationData (s : Store) (pid : String) : List ApplicationData :=
  (s.appDataRows.filter (fun r => r.1 == pid)).map (fun r => r.2)

/-- Modelled from the spec: `deleteProfile(profileId)` — idempotent removal
of the row with the given identifier. -/
def repoDeleteProfile (s : Store) (pid : String) : Store :=
  { s with profiles := s.profiles.filter (fun p => p.profileId != pid) }

/-- Modelled from the spec: removal of every event referencing the given
profile identifier (`DeleteEventsByProfileId`). -/
def repoDeleteEventsByProfileId (s : Store) (pid : String) : Store :=
  { s with events := s.events.filter (fun e => e.profileId != pid) }

/-- Modelled from the spec: `detachChildProfileFromParent(parentId, childId)`. -/
def repoDetachChildProfileFromParent (s : Store) (parent child : String) : Store :=
  { s with childLinks :=
      s.childLinks.filter (fun l => !(l.1 == parent && l.2 == child)) }

/-- Modelled from the spec: `insertProfile(Profile)` — insert-if-absent on
`profileId`; an existing row for the identifier is left untouched. -/
def repoInsertProfile (s : Store) (p : Profile) : Store :=
  if s.profiles.any (fun r => r.profileId == p.profileId) then s
  else { s with profiles := s.profiles ++ [p] }

/-- Outcome of the service `GetProfile`.  `crash` is the nil-pointer
dereference reachable when the parent fetch of a child profile returns no
row: the source assigns through the fetched pointer before its nil check. -/
inductive GetResult where
  | ok (p : Profile)
  | notFound
  | serverError
  | crash
deriving DecidableEq, Repr

/-- Service `GetProfile` (source lines 78–116), translated
statement-by-statement.  The error of the initial fetch is discarded by the
source (`profile, _ := profileRepo.GetProfile(ProfileId)`); the merged view
is built by fetching the master row, overwriting `ParentProfileID` with the
master's own identifier while it still holds the master's id, and then
overwriting `ProfileId` with the requested identifier.  When the master
fetch returns no row, evaluating `masterProfile.ProfileId` panics before
either the error check or the nil check of the source is reached. -/
def GetProfile (s : Store) (fault : String → Bool) (pid : String) :
    GetResult × List RepoCall :=
  match repoGetProfileF s fault pid with
  | (none, _) => (.notFound, [.getProfile pid])
  | (some profile, _) =>
    if profile.profileHierarchy.isParent then
      (.ok profile, [.getProfile pid])
    else
      match repoGetProfileF s fault profile.profileHierarchy.parentProfileID with
      | (none, _) =>
        (.crash, [.getProfile pid, .getProfile profile.profileHierarchy.parentProfileID])
      | (some master, err) =>
        let merged : Profile :=
          { master with
              profileId := profile.profileId,
              applicationData := repoFetchApplicationData s master.profileId,
              profileHierarchy :=
                { master.profileHierarchy with
                    childProfiles := repoFetchChildProfiles s master.profileId,
                    parentProfileID := master.profileId } }
        let ops : List RepoCall :=
          [.getProfile pid, .getProfile profile.profileHierarchy.parentProfileID,
           .fetchApplicationData master.profileId, .fetchChildProfiles master.profileId]
        if err then (.serverError, ops) else (.ok merged, ops)

/-- Requested identifier of a successful `GetProfile` outcome. -/
def resultProfileId : GetResult → Option String
  | .ok p => some p.profileId
  | _ => none

/-- Parent identifier recorded in a successful `GetProfile` outcome. -/
def resultParentProfileId : GetResult → Option String
  | .ok p => some p.profileHierarchy.parentProfileID
  | _ => none

/-- Traits of a successful `GetProfile` outcome. -/
def resultTraits : GetResult → Option (List (String × AttrValue))
  | .ok p => some p.traits
  | _ => none

/-- Identity attributes of a successful `GetProfile` outcome. -/
def resultIdentityAttributes : GetResult → Option (List (String × AttrValue))
  | .ok p => some p.identityAttributes
  | _ => none

/-- Application data of a successful `GetProfile` outcome. -/
def resultApplicationData : GetResult → Option (List ApplicationData)
  | .ok p => some p.applicationData
  | _ => none

/-- Outcome of the service `DeleteProfile`.  `crash` is the nil-pointer
dereference reachable when the parent row of a child target is missing. -/
inductive DeleteResult where
  | ok
  | serverError
  | crash
deriving DecidableEq, Repr

/-- The cascade loop of `DeleteProfile` (source lines 157–171): each child
reference is re-fetched and, when present, its row deleted; a missing child
row aborts the cascade with a server error. -/
def deleteChildren (fault : String → Bool) (s : Store) :
    List ChildRef → Option DeleteResult × Store × List RepoCall
  | [] => (none, s, [])
  | c :: rest =>
    match repoGetProfileF s fault c.childProfileId with
    | (none, _) => (some .serverError, s, [.getProfile c.childProfileId])
    | (some _, e) =>
      if e then (some .serverError, s, [.getProfile c.childProfileId])
      else
        let s1 := repoDeleteProfile s c.childProfileId
        let rec1 := deleteChildren fault s1 rest
        (rec1.1, rec1.2.1,
          .getProfile c.childProfileId :: .deleteProfile c.childProfileId :: rec1.2.2)

/-- The part of `DeleteProfile` after the target fetch and the event
removal (source lines 141–205): solo parent, parent with children,
only child, and sibling-detach branches.  In the child branches the parent
fetch error is never consulted by the source (the variable is overwritten
before any check), and a missing parent row panics at
`parentProfile.ProfileId` before any check. -/
def deleteProfileAfterEvents (s : Store) (fault : String → Bool) (pid : String)
    (profile : Profile) : DeleteResult × Store × List RepoCall :=
  if profile.profileHierarchy.isParent then
    let children := repoFetchChildProfiles s pid
    if children.isEmpty then
      (.ok, repoDeleteProfile s pid, [.fetchChildProfiles pid, .deleteProfile pid])
    else
      match deleteChildren fault s children with
      | (none, s2, childOps) =>
        (.ok, repoDeleteProfile s2 pid,
          .fetchChildProfiles pid :: (childOps ++ [.deleteProfile pid]))
      | (some r, s2, childOps) => (r, s2, .fetchChildProfiles pid :: childOps)
  else
    match repoGetProfileF s fault profile.profileHierarchy.parentProfileID with
    | (none, _) =>
      (.crash, s, [.getProfile profile.profileHierarchy.parentProfileID])
    | (some parentProfile, _) =>
      let siblings := repoFetchChildProfiles s parentProfile.profileId
      let ops : List RepoCall :=
        [.getProfile profile.profileHierarchy.parentProfileID,
         .fetchChildProfiles parentProfile.profileId]
      if siblings.length == 1 then
        (.ok,
          repoDeleteProfile
            (repoDeleteProfile s profile.profileHierarchy.parentProfileID) pid,
          ops ++ [.deleteProfile profile.profileHierarchy.parentProfileID,
                  .deleteProfile pid])
      else
        (.ok,
          repoDeleteProfile
            (repoDetachChildProfileFromParent s
              profile.profileHierarchy.parentProfileID pid) pid,
          ops ++ [.detachChildProfileFromParent
                    profile.profileHierarchy.parentProfileID pid,
                  .deleteProfile pid])

/-- Service `DeleteProfile` (source lines 119–206), translated
statement-by-statement.  A missing target row is a success no-op (the fetch
error is only consulted when a row was returned); otherwise the events of
the requested identifier are removed first and the hierarchy branches of
`deleteProfileAfterEvents` run. -/
def DeleteProfile (s : Store) (fault : String → Bool) (pid : String) :
    DeleteResult × Store × List RepoCall :=
  match repoGetProfileF s fault pid with
  | (none, _) => (.ok, s, [.getProfile pid])
  | (some profile, e) =>
    if e then (.serverError, s, [.getProfile pid])
    else
      let s1 := repoDeleteEventsByProfileId s pid
      let rest := deleteProfileAfterEvents s1 fault pid profile
      (rest.1, rest.2.1,
        .getProfile pid :: .deleteEventsByProfileId pid :: rest.2.2)

/-- The shared per-row merge loop of `GetAllProfiles` (source lines
252–273) and `GetAllProfilesWithFilter` (source lines 327–348): parent rows
pass through; for a non-parent row the master is fetched (a failed or empty
fetch skips the row), and the merged row is built by overwriting
`ProfileId` with the row's identifier first and `ParentProfileID` with
`master.ProfileId` afterwards — at which point `master.ProfileId` already
holds the row's (child) identifier. -/
def mergeListRows (s : Store) (fault : String → Bool) : List Profile → List Profile
  | [] => []
  | profile :: rest =>
    if profile.profileHierarchy.isParent then
      profile :: mergeListRows s fault rest
    else
      match repoGetProfileF s fault profile.profileHierarchy.parentProfileID with
      | (none, _) => mergeListRows s fault rest
      | (some master, e) =>
        if e then mergeListRows s fault rest
        else
          { master with
              profileId := profile.profileId,
              applicationData := repoFetchApplicationData s master.profileId,
              profileHierarchy :=
                { master.profileHierarchy with
                    childProfiles := repoFetchChildProfiles s master.profileId,
                    parentProfileID := profile.profileId } }
            :: mergeListRows s fault rest

/-- Modelled from the spec: `getAllProfiles()` returns the stored profile
rows. -/
def repoGetAllProfiles (s : Store) : List Profile :=
  s.profiles

/-- Service `GetAllProfiles` (source lines 237–274): fetches all rows and
applies the per-row merge loop. -/
def GetAllProfiles (s : Store) (fault : String → Bool) : List Profile :=
  mergeListRows s fault (repoGetAllProfiles s)

/-- Result of one `lock.Acquire` call: acquired, not acquired (retry), or a
lock-coordinator error. -/
inductive LockResult where
  | acquired
  | unavailable
  | failed
deriving DecidableEq, Repr

/-- Overall outcome of the acquisition retry loop. -/
inductive LockAcqOutcome where
  | success
  | failure
  | exhausted
deriving DecidableEq, Repr

/-- The lock acquisition retry loop of `CreateOrUpdateProfile` (source
lines 34–47): up to the given number of attempts, an erroring attempt
aborts immediately, an acquired attempt succeeds, and exhaustion of all
attempts is a distinct failure.  The attempt oracle maps the attempt index
to that attempt's result. -/
def acquireWithRetry (acquire : Nat → LockResult) (i : Nat) : Nat → LockAcqOutcome
  | 0 => .exhausted
  | Nat.succ r =>
    match acquire i with
    | .acquired => .success
    | .failed => .failure
    | .unavailable => acquireWithRetry acquire (i + 1) r

/-- Outcome of the service `CreateOrUpdateProfile`. -/
inductive CreateResult where
  | ok (p : Profile)
  | lockAcquireError
  | lockRetriesExhausted
  | notVisible
deriving DecidableEq, Repr

/-- The visibility polling loop `waitForProfile` (source lines 208–234):
up to `maxRetries` reads of the just-written profile, returning as soon as
a read yields a row.  The store does not change between attempts in this
model, so a first failed read repeats for the remaining attempts. -/
def waitForProfile (s : Store) (profileID : String) :
    Nat → Option Profile × List RepoCall
  | 0 => (none, [])
  | Nat.succ r =>
    match repoGetProfile s profileID with
    | some p => (some p, [.getProfile profileID])
    | none =>
      let rest := waitForProfile s profileID r
      (rest.1, .getProfile profileID :: rest.2)

/-- Service `CreateOrUpdateProfile` (source lines 19–75): acquire the
per-profile lock with bounded retry (an exhausted or erroring acquisition
returns before any storage access), upsert the skeleton profile
(`isParent=true`, `listProfile=true`, empty maps), and poll until the row
is readable.  The database-connection acquisition of the source is assumed
to succeed, and `constants.MaxRetryAttempts` is passed explicitly. -/
def CreateOrUpdateProfile (acquire : Nat → LockResult) (maxRetryAttempts : Nat)
    (s : Store) (event : Event) : CreateResult × Store × List RepoCall :=
  match acquireWithRetry acquire 0 maxRetryAttempts with
  | .failure => (.lockAcquireError, s, [])
  | .exhausted => (.lockRetriesExhausted, s, [])
  | .success =>
    let profileToUpsert : Profile :=
      { profileId := event.profileId,
        profileHierarchy :=
          { isParent := true, parentProfileID := "", listProfile := true,
            childProfiles := [] },
        identityAttributes := [],
        traits := [],
        applicationData := [] }
    let s1 := repoInsertProfile s profileToUpsert
    let w := waitForProfile s1 event.profileId maxRetryAttempts
    match w.1 with
    | some p => (.ok p, s1, .insertProfile event.profileId :: w.2)
    | none => (.notVisible, s1, .insertProfile event.profileId :: w.2)

/-- Numeric value of a decimal digit character. -/
def digitVal (c : Char) : Nat :=
  c.toNat - 48

/-- Accumulating scan for `digitsVal`. -/
def digitsValGo (acc : Nat) : List Char → Option Nat
  | [] => some acc
  | c :: rest => if c.isDigit then digitsValGo (acc * 10 + digitVal c) rest else none

/-- Value of a non-empty all-digit character sequence; `none` otherwise.
Mirrors the digit scan of `strconv` (no signs, no spaces, no other
characters). -/
def digitsVal : List Char → Option Nat
  | [] => none
  | cs => digitsValGo 0 cs

/-- `strconv.Atoi` syntax: an optional sign followed by one or more
decimal digits.  The 64-bit range clamping of the Go implementation is
outside this model (values are unbounded). -/
def parseGoInt (s : String) : Option Int :=
  match s.data with
  | [] => none
  | c :: rest =>
    if c = '-' then (digitsVal rest).map (fun n => -(n : Int))
    else if c = '+' then (digitsVal rest).map (fun n => (n : Int))
    else (digitsVal (c :: rest)).map (fun n => (n : Int))

/-- `strconv.Atoi` with its error discarded, as the source does
(`i, _ := strconv.Atoi(raw)`): invalid syntax yields the zero value. -/
def goAtoi (s : String) : Int :=
  (parseGoInt s).getD 0

/-- Unsigned decimal value of a digit list (empty list is zero); used for
the integer and fraction parts of a float literal. -/
def digitsToNat (cs : List Char) : Nat :=
  cs.foldl (fun acc c => acc * 10 + digitVal c) 0

/-- Mantissa of a decimal float literal: digits, optionally with a decimal
point and further digits, at least one digit in total.  Returns the exact
value and the unconsumed remainder. -/
def parseMantissa (cs : List Char) : Option (ℚ × List Char) :=
  let ip := cs.takeWhile (fun c => c.isDigit)
  let r1 := cs.dropWhile (fun c => c.isDigit)
  match r1 with
  | '.' :: r2 =>
    let fp := r2.takeWhile (fun c => c.isDigit)
    let r3 := r2.dropWhile (fun c => c.isDigit)
    if ip.isEmpty && fp.isEmpty then none
    else some ((digitsToNat ip : ℚ) + (digitsToNat fp : ℚ) / ((10 : ℚ) ^ fp.length), r3)
  | _ => if ip.isEmpty then none else some ((digitsToNat ip : ℚ), r1)

/-- `strconv.ParseFloat` restricted to the decimal forms relevant here:
optional sign, decimal mantissa, optional decimal exponent.  The value is
modelled exactly as a rational; IEEE rounding, infinities, NaN and hex
float syntax are outside this model. -/
def parseGoFloat (s : String) : Option ℚ :=
  let signAndRest : Int × List Char :=
    match s.data with
    | '-' :: r => (-1, r)
    | '+' :: r => (1, r)
    | cs => (1, cs)
  match parseMantissa signAndRest.2 with
  | none => none
  | some (m, rest) =>
    match rest with
    | [] => some ((signAndRest.1 : ℚ) * m)
    | e :: r2 =>
      if e = 'e' ∨ e = 'E' then
        let esignAndRest : Int × List Char :=
          match r2 with
          | '-' :: t => (-1, t)
          | '+' :: t => (1, t)
          | t => (1, t)
        match digitsVal esignAndRest.2 with
        | some n =>
          some ((signAndRest.1 : ℚ) * m * (10 : ℚ) ^ (esignAndRest.1 * (n : Int)))
        | none => none
      else none

/-- `strconv.ParseFloat` with its error discarded, as the source does:
invalid syntax yields the zero value. -/
def goParseFloatOrZero (s : String) : ℚ :=
  (parseGoFloat s).getD 0

/-- The dynamically typed result of `parseTypedValueForFilters`
(`interface{}` in the source). -/
inductive FilterValue where
  | intV (i : Int)
  | floatV (q : ℚ)
  | boolV (b : Bool)
  | strV (s : String)
deriving DecidableEq, Repr

/-- `parseTypedValueForFilters` (source lines 351–366): the declared value
type selects the conversion; `int` and `float`/`double` parse with errors
discarded, `boolean` compares against the literal `"true"`, and `string`
or any unknown type passes the raw text through. -/
def parseTypedValueForFilters (valueType : String) (raw : String) : FilterValue :=
  match valueType with
  | "int" => .intV (goAtoi raw)
  | "float" => .floatV (goParseFloatOrZero raw)
  | "double" => .floatV (goParseFloatOrZero raw)
  | "boolean" => .boolV (raw == "true")
  | "string" => .strV raw
  | _ => .strV raw

/-- First split of a character list at a space, if any. -/
def splitSpaceOnce : List Char → Option (List Char × List Char)
  | [] => none
  | c :: rest =>
    if c = ' ' then some ([], rest)
    else
      match splitSpaceOnce rest with
      | none => none
      | some (a, b) => some (c :: a, b)

/-- Split of a character list around spaces into at most `n` pieces, the
last piece keeping the unsplit remainder. -/
def splitNSpace : Nat → List Char → List (List Char)
  | 0, _ => []
  | 1, cs => [cs]
  | Nat.succ (Nat.succ m), cs =>
    match splitSpaceOnce cs with
    | none => [cs]
    | some (a, b) => a :: splitNSpace (Nat.succ m) b

/-- `strings.SplitN(s, " ", n)` specialised to the single-space separator
used at the call site: at most `n` substrings, the last one holding the
unsplit remainder. -/
def goSplitN (s : String) (n : Nat) : List String :=
  (splitNSpace n s.data).map (fun l => String.mk l)

/-- Number of space-separated fields of a string (a full split on single
spaces, with no bound on the number of pieces). -/
def spaceTokenCount (s : String) : Nat :=
  (goSplitN s (s.data.length + 1)).length

/-- The property-name to value-type lookup built from the enrichment rules
(source lines 289–292): a Go map populated in slice order, so the last
rule for a property wins, and a missing property yields the empty string. -/
def lookupType (rules : List EnrichmentRule) (field : String) : String :=
  match rules.reverse.find? (fun r => r.propertyName == field) with
  | some r => r.valueType
  | none => ""

/-- Re-serialization of a parsed filter value (source lines 306–312):
strings pass through, other values print as `fmt.Sprintf("%v", v)` does —
decimal for integers, `true`/`false` for booleans.  The shortest-decimal
rendering Go uses for floats is outside this model; a rational rendering
stands in for it (no claim depends on the rendered float text). -/
def formatFilterValue : FilterValue → String
  | .strV s => s
  | .intV i => toString i
  | .boolV b => if b then "true" else "false"
  | .floatV q => if q.den = 1 then toString q.num else toString q.num ++ "/" ++ toString q.den

/-- Rewriting of one well-formed (three-part) filter expression: the field
and operator pass through and the raw value is replaced by the re-serialized
typed value (source lines 301–313). -/
def rewriteFilter (rules : List EnrichmentRule) (f : String) : String :=
  let parts := goSplitN f 3
  let field := parts.getD 0 ""
  let operator := parts.getD 1 ""
  let rawValue := parts.getD 2 ""
  field ++ " " ++ operator ++ " " ++
    formatFilterValue (parseTypedValueForFilters (lookupType rules field) rawValue)

/-- The filter-rewriting loop of `GetAllProfilesWithFilter` (source lines
295–314): each filter is split around spaces into at most three parts; an
expression not yielding exactly three parts is skipped, the rest are
rewritten. -/
def buildUpdatedFilters (rules : List EnrichmentRule) : List String → List String
  | [] => []
  | f :: rest =>
    if (goSplitN f 3).length == 3 then
      rewriteFilter rules f :: buildUpdatedFilters rules rest
    else
      buildUpdatedFilters rules rest

/-- Service `GetAllProfilesWithFilter` (source lines 277–349): builds the
type map from the enrichment rules, rewrites the filters, hands them to the
storage query (the typed comparison itself happens in storage, modelled as
the `query` collaborator), and applies the same per-row merge loop as
`GetAllProfiles`. -/
def GetAllProfilesWithFilter (s : Store) (fault : String → Bool)
    (query : List String → List Profile) (filters : List String) : List Profile :=
  mergeListRows s fault (query (buildUpdatedFilters s.enrichmentRules filters))

/-- Parent row fixture: a stored parent profile with a trait, an external
identity attribute and one application-data row in storage. -/
def pRow : Profile :=
  { profileId := "p1",
    profileHierarchy :=
      { isParent := true, parentProfileID := "", listProfile := true,
        childProfiles := [] },
    identityAttributes := [("ext", .str "e1")],
    traits := [("a", .int 1)],
    applicationData := [] }

/-- Child row fixture: a stored child of `pRow`. -/
def cRow : Profile :=
  { profileId := "c1",
    profileHierarchy :=
      { isParent := false, parentProfileID := "p1", listProfile := true,
        childProfiles := [] },
    identityAttributes := [],
    traits := [],
    applicationData := [] }

/-- Store fixture: parent `p1` with child `c1`, one application-data row
for the parent, and one event referencing the child. -/
def storePC : Store :=
  { profiles := [pRow, cRow],
    childLinks := [("p1", "c1")],
    appDataRows := [("p1", ⟨"x"⟩)],
    events := [⟨"c1"⟩],
    enrichmentRules := [] }

/-- Store fixture: the child row alone, its parent row missing. -/
def storeOrphan : Store :=
  { profiles := [cRow],
    childLinks := [],
    appDataRows := [],
    events := [],
    enrichmentRules := [] }

/-- The all-false fault oracle: no collaborator failure injected. -/
def noFault : String → Bool :=
  fun _ => false

/-- A row returned by the profile lookup carries the requested identifier. -/
theorem profileId_of_repoGetProfile (s : Store) (pid : String) (p : Profile)
    (h : repoGetProfile s pid = some p) : p.profileId = pid := by
  have h2 := List.find?_some h
  simpa using h2

/-- Event removal does not change the profile rows. -/
theorem repoGetProfile_deleteEvents (s : Store) (q pid : String) :
    repoGetProfile (repoDeleteEventsByProfileId s q) pid = repoGetProfile s pid := rfl

/-- Event removal does not change the child links. -/
theorem repoFetchChildProfiles_deleteEvents (s : Store) (q pid : String) :
    repoFetchChildProfiles (repoDeleteEventsByProfileId s q) pid =
      repoFetchChildProfiles s pid := rfl

/-- After deleting a row, its identifier no longer resolves. -/
theorem repoGetProfile_deleteProfile_self (s : Store) (pid : String) :
    repoGetProfile (repoDeleteProfile s pid) pid = none := by
  simp only [repoGetProfile, repoDeleteProfile, List.find?_eq_none]
  intro x hx
  have h := (List.mem_filter.mp hx).2
  simp only [bne_iff_ne, ne_eq] at h
  simp [h]

/-- Deleting a row preserves the absence of any identifier. -/
theorem repoGetProfile_deleteProfile_none (s : Store) (q pid : String)
    (h : repoGetProfile s pid = none) :
    repoGetProfile (repoDeleteProfile s q) pid = none := by
  simp only [repoGetProfile, repoDeleteProfile, List.find?_eq_none] at h ⊢
  intro x hx
  exact h x (List.mem_filter.mp hx).1

/-- A successful fault-aware lookup means no fault was injected and the
plain lookup returned the row. -/
theorem repoGetProfileF_eq_some (s : Store) (fault : String → Bool) (pid : String)
    (p : Profile) (h : repoGetProfileF s fault pid = (some p, false)) :
    fault pid = false ∧ repoGetProfile s pid = some p := by
  cases hfc : fault pid
  · rw [repoGetProfileF] at h
    simp [hfc] at h
    exact ⟨rfl, h⟩
  · rw [repoGetProfileF] at h
    simp [hfc] at h

/-- C1: for a stored child profile C whose parent P is a stored parent
profile, `GetProfile` returns the merged view carrying the requested
identifier C, the parent's traits, identity attributes and stored
application data, and the parent's own identifier as `parentProfileId`;
the call issues no write operation against storage. -/
theorem getProfile_child_merged_view (s : Store) (fault : String → Bool)
    (C P : String) (c p : Profile)
    (hc : repoGetProfileF s fault C = (some c, false))
    (hnp : c.profileHierarchy.isParent = false)
    (hpar : c.profileHierarchy.parentProfileID = P)
    (hp : repoGetProfileF s fault P = (some p, false))
    (hpp : p.profileHierarchy.isParent = true) :
    resultProfileId (GetProfile s fault C).1 = some C ∧
    resultTraits (GetProfile s fault C).1 = some p.traits ∧
    resultIdentityAttributes (GetProfile s fault C).1 = some p.identityAttributes ∧
    resultApplicationData (GetProfile s fault C).1 = some (repoFetchApplicationData s P) ∧
    resultParentProfileId (GetProfile s fault C).1 = some P ∧
    ((GetProfile s fault C).2).all (fun op => !(RepoCall.isWrite op)) = true := by
  obtain ⟨hfC, hgC⟩ := repoGetProfileF_eq_some s fault C c hc
  obtain ⟨hfP, hgP⟩ := repoGetProfileF_eq_some s fault P p hp
  have hcid := profileId_of_repoGetProfile s C c hgC
  have hpid := profileId_of_repoGetProfile s P p hgP
  simp only [GetProfile, hc, hnp, hpar, hp, Bool.false_eq_true, if_false]
  simp [resultProfileId, resultTraits, resultIdentityAttributes,
    resultApplicationData, resultParentProfileId, RepoCall.isWrite, hcid, hpid]

/-- Witness for C1: the merged view of child c1 under parent p1 in the
concrete fixture store. -/
theorem getProfile_child_merged_view_witness :
    resultProfileId (GetProfile storePC noFault "c1").1 = some "c1" ∧
    resultTraits (GetProfile storePC noFault "c1").1 = some [("a", AttrValue.int 1)] ∧
    resultApplicationData (GetProfile storePC noFault "c1").1 = some [⟨"x"⟩] ∧
    resultParentProfileId (GetProfile storePC noFault "c1").1 = some "p1" := by
  have h := getProfile_child_merged_view storePC noFault "c1" "p1" cRow pRow
    (by decide) (by decide) (by decide) (by decide) (by decide)
  exact ⟨h.1, h.2.1, h.2.2.2.1, h.2.2.2.2.1⟩

/-- C10: evaluation of `GetProfile` at a child whose parent row is absent.
The source dereferences the fetched parent pointer (to read
`masterProfile.ProfileId` for the application-data fetch) before its nil
check, so the call panics instead of returning a value or an error. -/
theorem getProfile_orphan_child_crashes :
    repoGetProfile storeOrphan "c1" = some cRow ∧
    repoGetProfile storeOrphan "p1" = none ∧
    (GetProfile storeOrphan noFault "c1").1 = GetResult.crash := by decide

/-- Counterexample for C7: the profile row p1 is present in storage, the
collaborator fails on the initial fetch, and `GetProfile` answers
NotFoundError — not a StorageError — because the source discards the fetch
error and only tests the returned pointer. -/
theorem getProfile_fault_classified_as_not_found :
    repoGetProfile storePC "p1" = some pRow ∧
    (GetProfile storePC (fun q => q == "p1") "p1").1 = GetResult.notFound := by decide

/-- C7 (amended): `GetProfile` returns NotFoundError exactly when the
initial fetch yields no profile — whether because the row is absent or
because the collaborator failed, the fetch error being discarded; a
collaborator failure on the initial fetch is never surfaced as a
StorageError. -/
theorem getProfile_notFound_iff_initial_fetch_empty (s : Store)
    (fault : String → Bool) (pid : String) :
    (GetProfile s fault pid).1 = GetResult.notFound ↔
      (repoGetProfileF s fault pid).1 = none := by
  rcases hr : repoGetProfileF s fault pid with ⟨po, e⟩
  cases po with
  | none => simp [GetProfile, hr]
  | some profile =>
    cases hp : profile.profileHierarchy.isParent
    · rcases hm : repoGetProfileF s fault profile.profileHierarchy.parentProfileID
        with ⟨mo, e2⟩
      cases mo with
      | none => simp [GetProfile, hr, hp, hm]
      | some master => cases e2 <;> simp [GetProfile, hr, hp, hm]
    · simp [GetProfile, hr, hp]

/-- C2: divergence between the list merge and the single-profile merge on
the fixture store.  The single-profile resolve of c1 reports the parent's
identifier p1 as `parentProfileId`, while the list merge — whose two
overwrites run in the opposite order — reports the child's own identifier
c1; the skipping of rows is not at issue. -/
theorem getAllProfiles_parentId_diverges_from_getProfile :
    (GetAllProfiles storePC noFault).map
        (fun r => (r.profileId, r.profileHierarchy.parentProfileID)) =
      [("p1", ""), ("c1", "c1")] ∧
    (GetAllProfilesWithFilter storePC noFault (fun _ => storePC.profiles) []).map
        (fun r => (r.profileId, r.profileHierarchy.parentProfileID)) =
      [("p1", ""), ("c1", "c1")] ∧
    resultProfileId (GetProfile storePC noFault "c1").1 = some "c1" ∧
    resultParentProfileId (GetProfile storePC noFault "c1").1 = some "p1" := by decide

/-- C5: deleting an identifier with no stored profile row succeeds and
performs no storage mutation — the trace holds no event deletion, no
profile deletion and no detach, and the store is unchanged.  An identifier
already deleted earlier has no stored row, so a repeated delete falls under
the same statement. -/
theorem deleteProfile_absent_is_noop (s : Store) (fault : String → Bool)
    (pid : String) (hf : fault pid = false)
    (h : repoGetProfile s pid = none) :
    (DeleteProfile s fault pid).1 = DeleteResult.ok ∧
    (DeleteProfile s fault pid).2.1 = s ∧
    (DeleteProfile s fault pid).2.2 = [RepoCall.getProfile pid] ∧
    ((DeleteProfile s fault pid).2.2).all (fun op => !(RepoCall.isWrite op)) = true := by
  simp [DeleteProfile, repoGetProfileF, hf, h, RepoCall.isWrite]

/-- Witness for C5: deleting the unknown identifier `nonexistent` in the
fixture store. -/
theorem deleteProfile_absent_is_noop_witness :
    (DeleteProfile storePC noFault "nonexistent").1 = DeleteResult.ok ∧
    (DeleteProfile storePC noFault "nonexistent").2.1 = storePC ∧
    (DeleteProfile storePC noFault "nonexistent").2.2 = [RepoCall.getProfile "nonexistent"] ∧
    ((DeleteProfile storePC noFault "nonexistent").2.2).all
      (fun op => !(RepoCall.isWrite op)) = true :=
  deleteProfile_absent_is_noop storePC noFault "nonexistent" rfl (by decide)

/-- C3: when the target of a delete is a child whose stored parent has
exactly one child — the target itself — `DeleteProfile` succeeds and both
the parent row and the child row are gone from storage afterwards. -/
theorem deleteProfile_only_child_collapses (s : Store) (fault : String → Bool)
    (C P : String) (c p : Profile)
    (hfc : fault C = false)
    (hc : repoGetProfile s C = some c)
    (hnp : c.profileHierarchy.isParent = false)
    (hpar : c.profileHierarchy.parentProfileID = P)
    (hfP : fault P = false)
    (hp : repoGetProfile s P = some p)
    (hpp : p.profileHierarchy.isParent = true)
    (honly : repoFetchChildProfiles s P = [⟨C⟩]) :
    (DeleteProfile s fault C).1 = DeleteResult.ok ∧
    repoGetProfile (DeleteProfile s fault C).2.1 P = none ∧
    repoGetProfile (DeleteProfile s fault C).2.1 C = none := by
  have hpid := profileId_of_repoGetProfile s P p hp
  have key : (DeleteProfile s fault C).2.1 =
      repoDeleteProfile (repoDeleteProfile (repoDeleteEventsByProfileId s C) P) C := by
    simp [DeleteProfile, repoGetProfileF, hfc, hc, deleteProfileAfterEvents, hnp,
      hpar, hfP, repoGetProfile_deleteEvents, hp, hpid,
      repoFetchChildProfiles_deleteEvents, honly]
  refine ⟨?_, ?_, ?_⟩
  · simp [DeleteProfile, repoGetProfileF, hfc, hc, deleteProfileAfterEvents, hnp,
      hpar, hfP, repoGetProfile_deleteEvents, hp, hpid,
      repoFetchChildProfiles_deleteEvents, honly]
  · rw [key]
    exact repoGetProfile_deleteProfile_none _ _ _
      (repoGetProfile_deleteProfile_self _ _)
  · rw [key]
    exact repoGetProfile_deleteProfile_self _ _

/-- Witness for C3: deleting the only child c1 of parent p1 in the fixture
store removes both rows. -/
theorem deleteProfile_only_child_collapses_witness :
    (DeleteProfile storePC noFault "c1").1 = DeleteResult.ok ∧
    repoGetProfile (DeleteProfile storePC noFault "c1").2.1 "p1" = none ∧
    repoGetProfile (DeleteProfile storePC noFault "c1").2.1 "c1" = none :=
  deleteProfile_only_child_collapses storePC noFault "c1" "p1" cRow pRow
    rfl (by decide) (by decide) (by decide) rfl (by decide) (by decide) (by decide)

/-- If no attempt in the retry window acquires the lock, the retry loop
ends in failure or exhaustion, never success. -/
theorem acquireWithRetry_no_success (acquire : Nat → LockResult) :
    ∀ (r i : Nat), (∀ j, i ≤ j → j < i + r → acquire j ≠ LockResult.acquired) →
    acquireWithRetry acquire i r = LockAcqOutcome.failure ∨
    acquireWithRetry acquire i r = LockAcqOutcome.exhausted := by
  intro r
  induction r with
  | zero => intro i _; right; rfl
  | succ n ih =>
    intro i h
    cases hcase : acquire i with
    | acquired => exact absurd hcase (h i (Nat.le_refl i) (by omega))
    | failed => left; simp [acquireWithRetry, hcase]
    | unavailable =>
      have step := ih (i + 1) (fun j hj1 hj2 => h j (by omega) (by omega))
      rcases step with hs | hs
      · left; simp [acquireWithRetry, hcase, hs]
      · right; simp [acquireWithRetry, hcase, hs]

/-- C6: when no attempt within the retry budget acquires the per-profile
lock, `CreateOrUpdateProfile` fails with a lock-acquisition outcome and
issues no collaborator call at all — no upsert, no read — leaving the
store unchanged. -/
theorem createOrUpdateProfile_lock_failure (acquire : Nat → LockResult)
    (maxRetryAttempts : Nat) (s : Store) (event : Event)
    (h : ∀ j, j < maxRetryAttempts → acquire j ≠ LockResult.acquired) :
    ((CreateOrUpdateProfile acquire maxRetryAttempts s event).1 =
        CreateResult.lockAcquireError ∨
      (CreateOrUpdateProfile acquire maxRetryAttempts s event).1 =
        CreateResult.lockRetriesExhausted) ∧
    (CreateOrUpdateProfile acquire maxRetryAttempts s event).2.1 = s ∧
    (CreateOrUpdateProfile acquire maxRetryAttempts s event).2.2 = [] := by
  have hl := acquireWithRetry_no_success acquire maxRetryAttempts 0
    (fun j _ hj2 => h j (by omega))
  rcases hl with hl | hl
  · exact ⟨Or.inl (by simp [CreateOrUpdateProfile, hl]),
      by simp [CreateOrUpdateProfile, hl], by simp [CreateOrUpdateProfile, hl]⟩
  · exact ⟨Or.inr (by simp [CreateOrUpdateProfile, hl]),
      by simp [CreateOrUpdateProfile, hl], by simp [CreateOrUpdateProfile, hl]⟩

/-- Witness for C6: an always-unavailable lock with a budget of three
attempts in the fixture store. -/
theorem createOrUpdateProfile_lock_failure_witness :
    ((CreateOrUpdateProfile (fun _ => LockResult.unavailable) 3 storePC ⟨"n1"⟩).1 =
        CreateResult.lockAcquireError ∨
      (CreateOrUpdateProfile (fun _ => LockResult.unavailable) 3 storePC ⟨"n1"⟩).1 =
        CreateResult.lockRetriesExhausted) ∧
    (CreateOrUpdateProfile (fun _ => LockResult.unavailable) 3 storePC ⟨"n1"⟩).2.1 =
      storePC ∧
    (CreateOrUpdateProfile (fun _ => LockResult.unavailable) 3 storePC ⟨"n1"⟩).2.2 = [] :=
  createOrUpdateProfile_lock_failure (fun _ => LockResult.unavailable) 3 storePC ⟨"n1"⟩
    (by decide)

/-- Scan of an operation trace checking that every profile-row deletion is
preceded by a removal of the events of the given identifier: `cleared`
records whether such an event removal has already occurred. -/
def eventsCleared (pid : String) : Bool → List RepoCall → Bool
  | _, [] => true
  | cleared, op :: rest =>
    match op with
    | .deleteEventsByProfileId q => eventsCleared pid (cleared || q == pid) rest
    | .deleteProfile _ => cleared && eventsCleared pid cleared rest
    | _ => eventsCleared pid cleared rest

/-- Once the events of the identifier are cleared, the scan accepts any
remainder of the trace. -/
theorem eventsCleared_of_true (pid : String) :
    ∀ l, eventsCleared pid true l = true := by
  intro l
  induction l with
  | nil => rfl
  | cons op rest ih => cases op <;> simp [eventsCleared, ih]

/-- Whether an operation is not an event removal. -/
def notEventDelete : RepoCall → Bool
  | .deleteEventsByProfileId _ => false
  | _ => true

/-- Whether an operation is either not an event removal or an event
removal for the given identifier. -/
def onlyDeletesEventsOf (pid : String) : RepoCall → Bool
  | .deleteEventsByProfileId q => q == pid
  | _ => true

/-- The cascade loop issues only reads and profile-row deletions, never an
event removal. -/
theorem deleteChildren_no_event_deletes (fault : String → Bool) :
    ∀ (l : List ChildRef) (s : Store),
    ((deleteChildren fault s l).2.2).all notEventDelete = true := by
  intro l
  induction l with
  | nil => intro s; rfl
  | cons c rest ih =>
    intro s
    rcases hr : repoGetProfileF s fault c.childProfileId with ⟨po, e⟩
    cases po with
    | none => simp [deleteChildren, hr, notEventDelete]
    | some p0 =>
      cases e
      · simp [deleteChildren, hr, notEventDelete, ih]
      · simp [deleteChildren, hr, notEventDelete]

/-- After the event removal of the target, the hierarchy branches of the
delete issue no further event removal. -/
theorem deleteProfileAfterEvents_no_event_deletes (s : Store)
    (fault : String → Bool) (pid : String) (profile : Profile) :
    ((deleteProfileAfterEvents s fault pid profile).2.2).all notEventDelete = true := by
  cases hp : profile.profileHierarchy.isParent
  · rcases hm : repoGetProfileF s fault profile.profileHierarchy.parentProfileID
      with ⟨mo, e2⟩
    cases mo with
    | none => simp [deleteProfileAfterEvents, hp, hm, notEventDelete]
    | some parentProfile =>
      by_cases hs : (repoFetchChildProfiles s parentProfile.profileId).length == 1
      · simp [deleteProfileAfterEvents, hp, hm, hs, notEventDelete]
      · simp [deleteProfileAfterEvents, hp, hm, hs, notEventDelete]
  · by_cases he : (repoFetchChildProfiles s pid).isEmpty
    · simp [deleteProfileAfterEvents, hp, he, notEventDelete]
    · rcases hd : deleteChildren fault s (repoFetchChildProfiles s pid)
        with ⟨ro, s2, childOps⟩
      have hall : childOps.all notEventDelete = true := by
        have h2 := deleteChildren_no_event_deletes fault (repoFetchChildProfiles s pid) s
        rw [hd] at h2
        exact h2
      cases ro with
      | none => simp [deleteProfileAfterEvents, hp, he, hd, notEventDelete, hall]
      | some r => simp [deleteProfileAfterEvents, hp, he, hd, notEventDelete, hall]

/-- An operation that is not an event removal trivially removes events only
for the given identifier. -/
theorem all_onlyDeletesEventsOf_of_notEventDelete (pid : String)
    (l : List RepoCall) (h : l.all notEventDelete = true) :
    l.all (onlyDeletesEventsOf pid) = true := by
  rw [List.all_eq_true] at h ⊢
  intro x hx
  have hnx := h x hx
  cases x <;> simp_all [notEventDelete, onlyDeletesEventsOf]

/-- C4 (amended): in every execution of `DeleteProfile`, the events of the
requested identifier are removed before any profile row is deleted, and
those are the only event removals the call performs: rows deleted by
cascade (children of a parent target) or by collapse (the parent of an
only-child target) are deleted without their own events being removed. -/
theorem deleteProfile_clears_target_events_first (s : Store)
    (fault : String → Bool) (pid : String) :
    eventsCleared pid false ((DeleteProfile s fault pid).2.2) = true ∧
    ((DeleteProfile s fault pid).2.2).all (onlyDeletesEventsOf pid) = true := by
  rcases hr : repoGetProfileF s fault pid with ⟨po, e⟩
  cases po with
  | none => simp [DeleteProfile, hr, eventsCleared, onlyDeletesEventsOf]
  | some profile =>
    cases e
    · constructor
      · simp only [DeleteProfile, hr]
        simp [eventsCleared, eventsCleared_of_true]
      · simp only [DeleteProfile, hr]
        have hrest := deleteProfileAfterEvents_no_event_deletes
          (repoDeleteEventsByProfileId s pid) fault pid profile
        have hrest2 := all_onlyDeletesEventsOf_of_notEventDelete pid _ hrest
        simp [onlyDeletesEventsOf, hrest2]
    · simp [DeleteProfile, hr, eventsCleared, onlyDeletesEventsOf]

/-- Counterexample for C4: deleting parent p1 cascades to its child c1;
the child row is deleted while the trace holds no removal of the events
referencing c1, and the event referencing c1 survives the call in the
store, dangling. -/
theorem deleteProfile_cascade_leaves_child_events :
    (RepoCall.deleteProfile "c1") ∈ (DeleteProfile storePC noFault "p1").2.2 ∧
    ¬ (RepoCall.deleteEventsByProfileId "c1") ∈ (DeleteProfile storePC noFault "p1").2.2 ∧
    ((DeleteProfile storePC noFault "p1").2.1).events = [⟨"c1"⟩] ∧
    repoGetProfile (DeleteProfile storePC noFault "p1").2.1 "c1" = none := by decide

/-- C8 (amended): a filter expression contributes one translated predicate
if and only if splitting it around single spaces with limit three yields
exactly three parts — that is, the expression contains at least two
spaces.  Expressions with fewer parts are dropped silently; an expression
of more than three space-separated tokens is NOT dropped: everything after
the second space, further spaces included, becomes the raw value of one
translated predicate. -/
theorem buildUpdatedFilters_contributes_iff_three_parts
    (rules : List EnrichmentRule) (filters : List String) :
    buildUpdatedFilters rules filters =
      (filters.filter (fun f => (goSplitN f 3).length == 3)).map
        (rewriteFilter rules) := by
  induction filters with
  | nil => rfl
  | cons f rest ih =>
    cases h : ((goSplitN f 3).length == 3) <;>
      simp [buildUpdatedFilters, List.filter_cons, h, ih]

/-- Counterexample for C8: the four-token expression `age > 3 0` is not
dropped — it contributes a translated predicate whose raw value is the
remainder `3 0`. -/
theorem buildUpdatedFilters_keeps_four_token_filter :
    spaceTokenCount "age > 3 0" = 4 ∧
    buildUpdatedFilters [] ["age > 3 0"] = ["age > 3 0"] := by decide

/-- C9: the filter value conversion.  The declared type `int` parses the
raw text with `Atoi` whose error is discarded, so invalid syntax yields
integer zero; `float` and `double` parse with `ParseFloat` under the same
permissive-zero rule; `boolean` is true exactly when the raw text equals
`true`; `string` and unknown types pass the raw text through.  The filter
`age > 30` under type `int` translates with integer 30, and `age > abc`
translates with integer 0. -/
theorem parseTypedValueForFilters_spec (vt raw : String) :
    parseTypedValueForFilters vt raw =
      (if vt = "int" then FilterValue.intV (goAtoi raw)
       else if vt = "float" ∨ vt = "double" then
         FilterValue.floatV (goParseFloatOrZero raw)
       else if vt = "boolean" then FilterValue.boolV (raw == "true")
       else FilterValue.strV raw) ∧
    (parseGoInt raw = none → goAtoi raw = 0) ∧
    (parseGoFloat raw = none → goParseFloatOrZero raw = 0) ∧
    goAtoi "30" = 30 ∧ goAtoi "abc" = 0 ∧
    buildUpdatedFilters [⟨"age", "int"⟩] ["age > 30"] = ["age > 30"] ∧
    buildUpdatedFilters [⟨"age", "int"⟩] ["age > abc"] = ["age > 0"] := by
  refine ⟨?_, ?_, ?_, by decide, by decide, by decide, by decide⟩
  · by_cases h1 : vt = "int"
    · subst h1; simp [parseTypedValueForFilters]
    · by_cases h2 : vt = "float"
      · subst h2; simp [parseTypedValueForFilters]
      · by_cases h3 : vt = "double"
        · subst h3; simp [parseTypedValueForFilters]
        · by_cases h4 : vt = "boolean"
          · subst h4; simp [parseTypedValueForFilters]
          · by_cases h5 : vt = "string"
            · subst h5; simp [parseTypedValueForFilters]
            · rw [parseTypedValueForFilters.eq_def]
              simp [h1, h2, h3, h4, h5]
  · intro h; simp [goAtoi, h]
  · intro h; simp [goParseFloatOrZero, h]

/-- Witness for C9: the permissive-zero rule applied to the invalid
integer text `abc`. -/
theorem parseTypedValueForFilters_spec_witness : goAtoi "abc" = 0 :=
  (parseTypedValueForFilters_spec "int" "abc").2.1 (by decide)
